import Mathlib

/-!
# HelloWorldStubImpl

A shallow embedding of `src/HelloWorldStubImpl.cpp`: the handler object with its
counter, the two operations `sayHello` and `incCounter`, and the outbound
effects they produce, in program order.
-/

namespace HelloWorld

/-! ## Strings -/

/-- One `char` of a `std::string`, as its byte value `0 .. 255`. -/
abbrev CChar := Fin 256

/-- A `std::string`: a finite sequence of `char`, any byte allowed. -/
abbrev StdString := List CChar

/-- The bytes of a narrow string literal of the source (all of them ASCII). -/
def lit (s : String) : StdString :=
  s.toList.map fun c => ⟨c.toNat % 256, Nat.mod_lt _ (by decide)⟩

/-! ## Character conversions around `::toupper` -/

/-- Integral promotion of a plain `char` to `int`. Plain `char` is signed on
some targets and unsigned on others; `charSigned` says which. -/
def charToInt (charSigned : Bool) (c : CChar) : Int :=
  if charSigned && decide (128 ≤ c.val) then (c.val : Int) - 256 else (c.val : Int)

/-- Conversion of an `int` back to `char`, as done when `std::transform`
stores the result of the unary operation: reduction modulo `2^8`. -/
def intToChar (i : Int) : CChar :=
  ⟨(i % 256).toNat, by omega⟩

/-- The function `::toupper` of `<cctype>` in the "C" locale, the locale a program
runs in unless it calls `setlocale` (the source never does): the lowercase
letters 97 .. 122 go to the uppercase letters 65 .. 90, every other argument is
returned as it is. For a negative argument, which a signed `char` above 127
promotes to, the C library may return it plus 256 instead; the store back to
`char` in `intToChar` gives the same byte either way. -/
def toupper (c : Int) : Int :=
  if 97 ≤ c ∧ c ≤ 122 then c - 32 else c

/-- The unary operation `std::transform` applies to each `char` when given
`::toupper`: promote, call, store back. -/
def toupperOp (charSigned : Bool) (c : CChar) : CChar :=
  intToChar (toupper (charToInt charSigned c))

/-- In-place `std::transform(g.begin(), g.end(), g.begin(), op)`. -/
def transform (op : CChar → CChar) (g : StdString) : StdString :=
  g.map op

/-! ## The counter -/

/-- Modelled from the spec: the declaration of the field `cnt` is in
`HelloWorldStubImpl.hpp`, which is not part of the sources; the spec gives the
counter as a 32-bit signed integer. `wrapInt32` is the value of that type
congruent to `i` modulo `2^32`; it is the result of `cnt++` and of the cast
`(int32_t)cnt`. -/
def wrapInt32 (i : Int) : Int :=
  (i + 2147483648) % 4294967296 - 2147483648

/-- Decimal digits of a natural number, most significant first; `fuel` bounds
the number of digits produced. -/
def natDigits : Nat → Nat → StdString
  | 0, _ => []
  | fuel + 1, n =>
    if n < 10 then [intToChar (48 + n)]
    else natDigits fuel (n / 10) ++ [intToChar (48 + n % 10)]

/-- What `std::cout << i` writes for an `int`: an optional minus sign and the
decimal digits. -/
def decimal (i : Int) : StdString :=
  if i < 0 then lit "-" ++ natDigits 20 i.natAbs else natDigits 20 i.natAbs

/-! ## Handler state and effects -/

/-- The handler object; its only data member is `cnt`. -/
structure HelloWorldStubImpl where
  cnt : Int
  deriving DecidableEq

/-- An outbound effect of a handler method, at the boundary to the middleware
stub and to standard output. -/
inductive Effect where
  /-- Bytes written to `std::cout` by one output statement. -/
  | stdout (bytes : StdString)
  /-- The call `_reply(message)`. -/
  | reply (message : StdString)
  /-- The call `fireGreetingEvent(message)`. -/
  | fireGreetingEvent (message : StdString)
  /-- The call `setXAttribute(value)`. -/
  | setXAttribute (value : Int)
  deriving DecidableEq

/-- Constructor `HelloWorldStubImpl::HelloWorldStubImpl(): cnt(0)`. -/
def HelloWorldStubImpl.init : HelloWorldStubImpl :=
  { cnt := 0 }

/-- The contents of `messageStream` after
`messageStream << "Hello " << _name << "!"`. -/
def messageStream (_name : StdString) : StdString :=
  lit "Hello " ++ _name ++ lit "!"

/-- Method `HelloWorldStubImpl::sayHello`: the state after the call and the effects
of the call in program order. The client identity has an arbitrary type. -/
def sayHello {ClientId : Type} (charSigned : Bool) (self : HelloWorldStubImpl)
    (_client : ClientId) (_name : StdString) : HelloWorldStubImpl × List Effect :=
  let str := messageStream _name
  let line := lit "sayHello('" ++ _name ++ lit "'): '" ++ str ++ lit "'\n"
  let greeting := transform (toupperOp charSigned) str
  (self, [Effect.stdout line, Effect.reply str, Effect.fireGreetingEvent greeting])

/-- Method `HelloWorldStubImpl::incCounter`: the state after the call and the
effects of the call in program order. `std::endl` writes the newline. -/
def incCounter (self : HelloWorldStubImpl) : HelloWorldStubImpl × List Effect :=
  let cnt := wrapInt32 (self.cnt + 1)
  ({ cnt := cnt },
   [Effect.setXAttribute (wrapInt32 cnt),
    Effect.stdout (lit "New counter value = " ++ decimal cnt ++ lit "!" ++ lit "\n")])

/-! ## Call sequences -/

/-- One incoming call on the handler, as dispatched by the middleware. -/
inductive Call (ClientId : Type) where
  | sayHello (_client : ClientId) (_name : StdString)
  | incCounter

/-- Dispatch of one call to the method it names. -/
def dispatch {ClientId : Type} (charSigned : Bool) (self : HelloWorldStubImpl) :
    Call ClientId → HelloWorldStubImpl × List Effect
  | Call.sayHello _client _name => sayHello charSigned self _client _name
  | Call.incCounter => incCounter self

/-- Sequential execution of a list of calls: the final state and all effects in
the order they were produced. -/
def run {ClientId : Type} (charSigned : Bool) :
    HelloWorldStubImpl → List (Call ClientId) → HelloWorldStubImpl × List Effect
  | self, [] => (self, [])
  | self, call :: rest =>
    let r := dispatch charSigned self call
    let r2 := run charSigned r.1 rest
    (r2.1, r.2 ++ r2.2)

/-- Number of `incCounter` calls in a call sequence. -/
def incCalls {ClientId : Type} : List (Call ClientId) → Nat
  | [] => 0
  | Call.incCounter :: rest => incCalls rest + 1
  | Call.sayHello _ _ :: rest => incCalls rest

/-! ## Observations on effect sequences -/

/-- The payloads passed to the reply callback, in order. -/
def replies (es : List Effect) : List StdString :=
  es.filterMap fun e => match e with
    | Effect.reply m => some m
    | _ => none

/-- The payloads passed to `fireGreetingEvent`, in order. -/
def greetingEvents (es : List Effect) : List StdString :=
  es.filterMap fun e => match e with
    | Effect.fireGreetingEvent m => some m
    | _ => none

/-- The values passed to `setXAttribute`, in order. -/
def publishedValues (es : List Effect) : List Int :=
  es.filterMap fun e => match e with
    | Effect.setXAttribute v => some v
    | _ => none

/-- The byte sequences written to standard output, one per output statement. -/
def stdoutWrites (es : List Effect) : List StdString :=
  es.filterMap fun e => match e with
    | Effect.stdout b => some b
    | _ => none

/-- The value published by the `n`-th `incCounter` call on a freshly constructed
handler (`none` for `n = 0`, when there is no such call). -/
def nthPublished (n : Nat) : Option Int :=
  (publishedValues
    (run true HelloWorldStubImpl.init (List.replicate n (Call.incCounter : Call Unit))).2).getLast?

/-! ## Specification-side definitions -/

/-- ASCII uppercasing as the specification words it: each of `'a' .. 'z'` is
replaced by the matching one of `'A' .. 'Z'`, every other character is left
unchanged. -/
def asciiUpper (c : CChar) : CChar :=
  if h : 97 ≤ c.val ∧ c.val ≤ 122 then ⟨c.val - 32, by omega⟩ else c

/-- The number a sequence of decimal digit characters stands for. -/
def digitsValue (ds : StdString) : Nat :=
  ds.foldl (fun acc d => 10 * acc + (d.val - 48)) 0

/-- The list `1, 2, ..., n` of integers. -/
def oneTo (n : Nat) : List Int :=
  (List.range n).map fun (k : Nat) => (k : Int) + 1

end HelloWorld

namespace HelloWorld

/-! ## Lemmas on the character mapping -/

theorem asciiUpper_val (c : CChar) :
    (asciiUpper c).val = if 97 ≤ c.val ∧ c.val ≤ 122 then c.val - 32 else c.val := by
  unfold asciiUpper
  split_ifs <;> rfl

theorem toupperOp_val (charSigned : Bool) (c : CChar) :
    (toupperOp charSigned c).val = if 97 ≤ c.val ∧ c.val ≤ 122 then c.val - 32 else c.val := by
  obtain ⟨v, hv⟩ := c
  cases charSigned
  · simp only [toupperOp, intToChar, toupper, charToInt, Bool.false_and, Bool.false_eq_true,
      if_false]
    split_ifs <;> omega
  · simp only [toupperOp, intToChar, toupper, charToInt, Bool.true_and, decide_eq_true_eq]
    split_ifs <;> omega

theorem toupperOp_eq_asciiUpper (charSigned : Bool) (c : CChar) :
    toupperOp charSigned c = asciiUpper c :=
  Fin.ext ((toupperOp_val charSigned c).trans (asciiUpper_val c).symm)

theorem transform_toupperOp (charSigned : Bool) (g : StdString) :
    transform (toupperOp charSigned) g = g.map asciiUpper := by
  unfold transform
  exact List.map_congr_left fun c _ => toupperOp_eq_asciiUpper charSigned c

theorem asciiUpper_not_lower (c : CChar) :
    ¬ (97 ≤ (asciiUpper c).val ∧ (asciiUpper c).val ≤ 122) := by
  rw [asciiUpper_val]
  split_ifs <;> omega

theorem asciiUpper_idem (c : CChar) : asciiUpper (asciiUpper c) = asciiUpper c := by
  apply Fin.ext
  rw [asciiUpper_val (asciiUpper c), if_neg (asciiUpper_not_lower c)]

/-! ## Lemmas on `sayHello` -/

theorem sayHello_effects {ClientId : Type} (charSigned : Bool) (self : HelloWorldStubImpl)
    (client : ClientId) (s : StdString) :
    (sayHello charSigned self client s).2 =
      [Effect.stdout (lit "sayHello('" ++ s ++ lit "'): '" ++ messageStream s ++ lit "'\n"),
       Effect.reply (messageStream s),
       Effect.fireGreetingEvent ((messageStream s).map asciiUpper)] := by
  simp only [sayHello, transform_toupperOp]

theorem messageStream_upper (s : StdString) :
    (messageStream s).map asciiUpper = lit "HELLO " ++ s.map asciiUpper ++ lit "!" := by
  have h1 : (lit "Hello ").map asciiUpper = lit "HELLO " := by decide
  have h2 : (lit "!").map asciiUpper = lit "!" := by decide
  simp only [messageStream, List.map_append, h1, h2]

theorem messageStream_length (s : StdString) : (messageStream s).length = s.length + 7 := by
  have h1 : (lit "Hello ").length = 6 := by decide
  have h2 : (lit "!").length = 1 := by decide
  simp only [messageStream, List.length_append, h1, h2]
  omega

/-! ## Theorems on `sayHello` -/

/-- C1: for every name `s`, every client identity, every handler state and either
signedness of `char`, `sayHello` calls the reply callback exactly once, with the
string `"Hello " ++ s ++ "!"`; the empty name gives `"Hello !"` and the name
`"World"` gives `"Hello World!"`. -/
theorem sayHello_reply_payload {ClientId : Type} (charSigned : Bool)
    (self : HelloWorldStubImpl) (client : ClientId) (s : StdString) :
    replies (sayHello charSigned self client s).2 = [lit "Hello " ++ s ++ lit "!"]
    ∧ replies (sayHello charSigned self client []).2 = [lit "Hello !"]
    ∧ replies (sayHello charSigned self client (lit "World")).2 = [lit "Hello World!"] := by
  refine ⟨rfl, ?_, ?_⟩
  · show [messageStream []] = [lit "Hello !"]
    decide
  · show [messageStream (lit "World")] = [lit "Hello World!"]
    decide

/-- C2: for every name `s`, the payload `sayHello` passes to `fireGreetingEvent` is
the reply payload with every character mapped through ASCII uppercasing
(`asciiUpper`), whatever the signedness of `char`; the name `"World"` gives the
event payload `"HELLO WORLD!"`. -/
theorem sayHello_event_is_upper_reply {ClientId : Type} (charSigned : Bool)
    (self : HelloWorldStubImpl) (client : ClientId) (s : StdString) :
    greetingEvents (sayHello charSigned self client s).2
      = (replies (sayHello charSigned self client s).2).map (fun r => r.map asciiUpper)
    ∧ greetingEvents (sayHello charSigned self client (lit "World")).2
      = [lit "HELLO WORLD!"] := by
  constructor
  · rw [sayHello_effects]
    rfl
  · rw [sayHello_effects]
    show [(messageStream (lit "World")).map asciiUpper] = [lit "HELLO WORLD!"]
    decide

/-- C3: the effects of one `sayHello` call contain exactly one reply and exactly one
`fireGreetingEvent`, the reply at an earlier position than the event, and no
`setXAttribute`. -/
theorem sayHello_one_reply_then_one_event {ClientId : Type} (charSigned : Bool)
    (self : HelloWorldStubImpl) (client : ClientId) (s : StdString) :
    (replies (sayHello charSigned self client s).2).length = 1
    ∧ (greetingEvents (sayHello charSigned self client s).2).length = 1
    ∧ publishedValues (sayHello charSigned self client s).2 = []
    ∧ ∃ (i j : Nat) (m g : StdString), i < j
        ∧ (sayHello charSigned self client s).2[i]? = some (Effect.reply m)
        ∧ (sayHello charSigned self client s).2[j]? = some (Effect.fireGreetingEvent g) :=
  ⟨rfl, rfl, rfl, 1, 2, _, _, by decide, rfl, rfl⟩

/-- C6: a `sayHello` call leaves the handler state, and so the counter, as it found
it, for every state, name and client identity. -/
theorem sayHello_preserves_counter {ClientId : Type} (charSigned : Bool)
    (self : HelloWorldStubImpl) (client : ClientId) (s : StdString) :
    (sayHello charSigned self client s).1.cnt = self.cnt
    ∧ (sayHello charSigned self client s).1 = self :=
  ⟨rfl, rfl⟩

/-- C7: for one name `s`, two `sayHello` runs with any two client identities (of any
types) and any two handler states produce the same effects: the same log line, the
same reply payload and the same event payload. -/
theorem sayHello_ignores_client_and_state {A B : Type} (charSigned : Bool)
    (h1 h2 : HelloWorldStubImpl) (c1 : A) (c2 : B) (s : StdString) :
    stdoutWrites (sayHello charSigned h1 c1 s).2 = stdoutWrites (sayHello charSigned h2 c2 s).2
    ∧ replies (sayHello charSigned h1 c1 s).2 = replies (sayHello charSigned h2 c2 s).2
    ∧ greetingEvents (sayHello charSigned h1 c1 s).2
        = greetingEvents (sayHello charSigned h2 c2 s).2
    ∧ (sayHello charSigned h1 c1 s).2 = (sayHello charSigned h2 c2 s).2 :=
  ⟨rfl, rfl, rfl, rfl⟩

/-- C8: for every name `s`, `sayHello` makes exactly one write to standard output,
the bytes `sayHello('` ++ s ++ `'): '` ++ `Hello ` ++ s ++ `!` ++ `'` followed by
a newline; the greeting in it is the payload of the reply, not that of the event. -/
theorem sayHello_log_line {ClientId : Type} (charSigned : Bool)
    (self : HelloWorldStubImpl) (client : ClientId) (s : StdString) :
    stdoutWrites (sayHello charSigned self client s).2
      = [lit "sayHello('" ++ s ++ lit "'): '" ++ (lit "Hello " ++ s ++ lit "!") ++ lit "'"
          ++ lit "\n"]
    ∧ ∃ r, replies (sayHello charSigned self client s).2 = [r]
        ∧ stdoutWrites (sayHello charSigned self client s).2
          = [lit "sayHello('" ++ s ++ lit "'): '" ++ r ++ lit "'" ++ lit "\n"] := by
  have h : lit "'\n" = lit "'" ++ lit "\n" := by decide
  have key : stdoutWrites (sayHello charSigned self client s).2
      = [lit "sayHello('" ++ s ++ lit "'): '" ++ (lit "Hello " ++ s ++ lit "!") ++ lit "'"
          ++ lit "\n"] := by
    show [lit "sayHello('" ++ s ++ lit "'): '" ++ messageStream s ++ lit "'\n"] = _
    rw [h, ← List.append_assoc]
    rfl
  exact ⟨key, _, rfl, key⟩

/-- C9: for every name `s`, the event payload of `sayHello` is
`"HELLO " ++ asciiUpper(s) ++ "!"`, it is as long as the reply payload, namely the
length of `s` plus 7, it is a fixed point of ASCII uppercasing, and it holds no
character in `'a' .. 'z'`. -/
theorem sayHello_event_upper_distributes {ClientId : Type} (charSigned : Bool)
    (self : HelloWorldStubImpl) (client : ClientId) (s : StdString) :
    ∃ r g, replies (sayHello charSigned self client s).2 = [r]
      ∧ greetingEvents (sayHello charSigned self client s).2 = [g]
      ∧ g = lit "HELLO " ++ s.map asciiUpper ++ lit "!"
      ∧ g.length = r.length
      ∧ g.length = s.length + 7
      ∧ g.map asciiUpper = g
      ∧ ∀ c ∈ g, ¬ (97 ≤ c.val ∧ c.val ≤ 122) := by
  refine ⟨messageStream s, (messageStream s).map asciiUpper, rfl, ?_, messageStream_upper s,
    List.length_map _ _, ?_, ?_, ?_⟩
  · rw [sayHello_effects]
    rfl
  · rw [List.length_map, messageStream_length]
  · rw [List.map_map]
    exact List.map_congr_left fun c _ => asciiUpper_idem c
  · intro c hc
    obtain ⟨d, _, rfl⟩ := List.mem_map.mp hc
    exact asciiUpper_not_lower d

/-! ## Lemmas on the counter -/

theorem wrapInt32_of_inRange (i : Int) (h1 : -2147483648 ≤ i) (h2 : i < 2147483648) :
    wrapInt32 i = i := by
  unfold wrapInt32
  omega

theorem wrapInt32_idem (i : Int) : wrapInt32 (wrapInt32 i) = wrapInt32 i := by
  unfold wrapInt32
  omega

theorem wrapInt32_succ (i k : Int) : wrapInt32 (wrapInt32 (i + 1) + k) = wrapInt32 (i + (k + 1)) := by
  unfold wrapInt32
  omega

theorem wrapInt32_eq_self_iff (n : Nat) : wrapInt32 (n : Int) = (n : Int) ↔ n < 2147483648 := by
  unfold wrapInt32
  omega

theorem digitsValue_append_singleton (ds : StdString) (d : CChar) :
    digitsValue (ds ++ [d]) = 10 * digitsValue ds + (d.val - 48) := by
  unfold digitsValue
  rw [List.foldl_append]
  rfl

/-- With enough fuel the digits written are those of the number: every 32-bit
magnitude is below `10 ^ 20`, the fuel `decimal` uses. -/
theorem natDigits_value (fuel n : Nat) (h : n < 10 ^ fuel) :
    digitsValue (natDigits fuel n) = n := by
  induction fuel generalizing n with
  | zero =>
    have h0 : n = 0 := by
      rw [pow_zero] at h
      omega
    subst h0
    rfl
  | succ fuel ih =>
    unfold natDigits
    split_ifs with hlt
    · simp only [digitsValue, List.foldl_cons, List.foldl_nil, intToChar]
      omega
    · have hdiv : n / 10 < 10 ^ fuel := by
        rw [pow_succ] at h
        omega
      rw [digitsValue_append_singleton, ih _ hdiv]
      simp only [intToChar]
      omega

theorem incCounter_effects (self : HelloWorldStubImpl) :
    (incCounter self).2 =
      [Effect.setXAttribute (wrapInt32 (self.cnt + 1)),
       Effect.stdout (lit "New counter value = " ++ decimal (wrapInt32 (self.cnt + 1))
         ++ lit "!" ++ lit "\n")] := by
  simp only [incCounter, wrapInt32_idem]

theorem publishedValues_append (xs ys : List Effect) :
    publishedValues (xs ++ ys) = publishedValues xs ++ publishedValues ys := by
  unfold publishedValues
  exact List.filterMap_append _ _ _

/-- The values published by a call sequence started in a state with counter `c`:
the `k`-th `incCounter` call (counting from 0) publishes `wrapInt32 (c + (k + 1))`. -/
theorem run_publishedValues {ClientId : Type} (charSigned : Bool)
    (calls : List (Call ClientId)) (self : HelloWorldStubImpl) :
    publishedValues (run charSigned self calls).2
      = (List.range (incCalls calls)).map fun (k : Nat) => wrapInt32 (self.cnt + ((k : Int) + 1)) := by
  induction calls generalizing self with
  | nil => rfl
  | cons call rest ih =>
    cases call with
    | sayHello client name =>
      have h := ih self
      simp only [run, dispatch, incCalls, publishedValues_append]
      rw [show (sayHello charSigned self client name).1 = self from rfl, h]
      rfl
    | incCounter =>
      have h := ih (incCounter self).1
      simp only [run, dispatch, incCalls, publishedValues_append]
      rw [h, incCounter_effects, List.range_succ_eq_map, List.map_cons, List.map_map]
      have hc : (incCounter self).1.cnt = wrapInt32 (self.cnt + 1) := rfl
      rw [hc]
      show wrapInt32 (self.cnt + 1) :: _ = _
      congr 1
      apply List.map_congr_left
      intro k _
      simp only [Function.comp_apply, Nat.succ_eq_add_one, Nat.cast_add, Nat.cast_one]
      exact wrapInt32_succ _ _

/-- The counter after a call sequence started in a state whose counter is a
32-bit value `c`: it is `wrapInt32 (c + n)` for `n` calls of `incCounter`. -/
theorem run_cnt {ClientId : Type} (charSigned : Bool)
    (calls : List (Call ClientId)) (self : HelloWorldStubImpl)
    (hself : wrapInt32 self.cnt = self.cnt) :
    (run charSigned self calls).1.cnt = wrapInt32 (self.cnt + (incCalls calls : Int)) := by
  induction calls generalizing self with
  | nil =>
    show self.cnt = wrapInt32 (self.cnt + ((0 : Nat) : Int))
    rw [Nat.cast_zero, add_zero, hself]
  | cons call rest ih =>
    cases call with
    | sayHello client name => exact ih self hself
    | incCounter =>
      have h := ih (incCounter self).1 (wrapInt32_idem _)
      have hc : (incCounter self).1.cnt = wrapInt32 (self.cnt + 1) := rfl
      simp only [run, dispatch, incCalls]
      rw [h, hc, Nat.cast_add, Nat.cast_one]
      exact wrapInt32_succ _ _

theorem incCalls_replicate (ClientId : Type) (n : Nat) :
    incCalls (List.replicate n (Call.incCounter : Call ClientId)) = n := by
  induction n with
  | zero => rfl
  | succ n ih =>
    rw [List.replicate_succ]
    show incCalls _ + 1 = n + 1
    rw [ih]

theorem nthPublished_succ (n : Nat) :
    nthPublished (n + 1) = some (wrapInt32 ((n : Int) + 1)) := by
  unfold nthPublished
  rw [run_publishedValues, incCalls_replicate, List.range_succ, List.map_append,
    List.map_singleton, List.getLast?_append, List.getLast?_singleton]
  show some (wrapInt32 (0 + ((n : Int) + 1))) = _
  rw [zero_add]

theorem oneTo_getLast? (n : Nat) : (oneTo (n + 1)).getLast? = some ((n : Int) + 1) := by
  unfold oneTo
  rw [List.range_succ, List.map_append, List.map_singleton, List.getLast?_append,
    List.getLast?_singleton]
  rfl

theorem run_publishedValues_init {ClientId : Type} (charSigned : Bool)
    (calls : List (Call ClientId)) :
    publishedValues (run charSigned HelloWorldStubImpl.init calls).2
      = (List.range (incCalls calls)).map fun (k : Nat) => wrapInt32 ((k : Int) + 1) := by
  rw [run_publishedValues]
  apply List.map_congr_left
  intro k _
  show wrapInt32 (0 + ((k : Int) + 1)) = _
  rw [zero_add]

/-! ## Theorems on `incCounter` -/

/-- C4, within the 32-bit range: on a freshly constructed handler, for every call sequence with
`n < 2^31` calls of `incCounter` and any `sayHello` calls interleaved, the values
passed to `setXAttribute` are `1, 2, ..., n` in call order, the stored counter ends
as `n`, and for `n > 0` the last published value is `n`. -/
theorem incCounter_publishes_one_to_n {ClientId : Type} (charSigned : Bool)
    (calls : List (Call ClientId)) (h : incCalls calls < 2147483648) :
    publishedValues (run charSigned HelloWorldStubImpl.init calls).2 = oneTo (incCalls calls)
    ∧ (run charSigned HelloWorldStubImpl.init calls).1.cnt = (incCalls calls : Int)
    ∧ (0 < incCalls calls →
        (publishedValues (run charSigned HelloWorldStubImpl.init calls).2).getLast?
          = some (incCalls calls : Int)) := by
  have hpub : publishedValues (run charSigned HelloWorldStubImpl.init calls).2
      = oneTo (incCalls calls) := by
    rw [run_publishedValues_init]
    unfold oneTo
    apply List.map_congr_left
    intro k hk
    have hk2 : k < incCalls calls := List.mem_range.mp hk
    exact wrapInt32_of_inRange _ (by omega) (by omega)
  refine ⟨hpub, ?_, ?_⟩
  · rw [run_cnt charSigned calls HelloWorldStubImpl.init (by decide)]
    show wrapInt32 (0 + (incCalls calls : Int)) = _
    rw [zero_add]
    exact wrapInt32_of_inRange _ (by omega) (by omega)
  · intro hpos
    obtain ⟨m, hm⟩ := Nat.exists_eq_succ_of_ne_zero (Nat.pos_iff_ne_zero.mp hpos)
    rw [hpub, hm, oneTo_getLast?]
    rfl

/-- C4, witness: three `incCounter` calls with a `sayHello` call in between publish
`1, 2, 3` and leave the counter at 3. -/
theorem incCounter_publishes_one_to_n_witness :
    incCalls [Call.incCounter, Call.sayHello () (lit "World"), Call.incCounter,
      Call.incCounter] < 2147483648
    ∧ (publishedValues (run true HelloWorldStubImpl.init
        [Call.incCounter, Call.sayHello () (lit "World"), Call.incCounter,
          Call.incCounter]).2 = [1, 2, 3]
      ∧ (run true HelloWorldStubImpl.init
        [Call.incCounter, Call.sayHello () (lit "World"), Call.incCounter,
          Call.incCounter]).1.cnt = 3
      ∧ (0 < 3 → (publishedValues (run true HelloWorldStubImpl.init
        [Call.incCounter, Call.sayHello () (lit "World"), Call.incCounter,
          Call.incCounter]).2).getLast? = some 3)) :=
  ⟨by decide,
   incCounter_publishes_one_to_n true
     [Call.incCounter, Call.sayHello () (lit "World"), Call.incCounter, Call.incCounter]
     (by decide)⟩

/-- C4, counterexample: on a fresh handler, `2^31` calls of `incCounter` leave the
counter at `-2^31`, which is also the last value published; so neither equals
`n = 2^31`, and the published sequence is not `1, 2, ..., 2^31`. -/
theorem incCounter_publishes_one_to_n_fails_at_overflow :
    incCalls (List.replicate 2147483648 (Call.incCounter : Call Unit)) = 2147483648
    ∧ (run true HelloWorldStubImpl.init
        (List.replicate 2147483648 (Call.incCounter : Call Unit))).1.cnt = -2147483648
    ∧ nthPublished 2147483648 = some (-2147483648)
    ∧ publishedValues (run true HelloWorldStubImpl.init
        (List.replicate 2147483648 (Call.incCounter : Call Unit))).2 ≠ oneTo 2147483648 := by
  have hw : wrapInt32 (((2147483647 : Nat) : Int) + 1) = -2147483648 := by decide
  have hlast : nthPublished 2147483648 = some (-2147483648) := by
    have h := nthPublished_succ 2147483647
    rw [hw] at h
    exact h
  refine ⟨incCalls_replicate Unit 2147483648, ?_, hlast, ?_⟩
  · rw [run_cnt true _ HelloWorldStubImpl.init (by decide), incCalls_replicate]
    decide
  · intro hEq
    have h2 : nthPublished 2147483648 = (oneTo 2147483648).getLast? :=
      congrArg List.getLast? hEq
    rw [hlast, oneTo_getLast? 2147483647] at h2
    revert h2
    decide

/-- C5, below the largest counter value: for every handler state whose counter `c` is a 32-bit value other
than the largest one (`-2^31 ≤ c < 2^31 - 1`), one `incCounter` call sets the counter
to `c + 1`, then passes the new value `c + 1` to `setXAttribute` exactly once, then
writes the one line `New counter value = <c+1>!`; it makes no reply and fires no
greeting event. On a fresh handler the line is `New counter value = 1!`. -/
theorem incCounter_step (c : Int) (h1 : -2147483648 ≤ c) (h2 : c < 2147483647) :
    incCounter { cnt := c }
      = ({ cnt := c + 1 },
         [Effect.setXAttribute (c + 1),
          Effect.stdout (lit "New counter value = " ++ decimal (c + 1) ++ lit "!" ++ lit "\n")])
    ∧ publishedValues (incCounter { cnt := c }).2 = [c + 1]
    ∧ replies (incCounter { cnt := c }).2 = []
    ∧ greetingEvents (incCounter { cnt := c }).2 = []
    ∧ (incCounter HelloWorldStubImpl.init).2
      = [Effect.setXAttribute 1, Effect.stdout (lit "New counter value = 1!\n")] := by
  have hw : wrapInt32 (c + 1) = c + 1 := wrapInt32_of_inRange _ (by omega) (by omega)
  have heff := incCounter_effects { cnt := c }
  have hst : (incCounter { cnt := c }).1 = { cnt := wrapInt32 (c + 1) } := rfl
  simp only [hw] at heff hst
  refine ⟨Prod.ext hst heff, ?_, ?_, ?_, by decide⟩
  · rw [heff]
    rfl
  · rw [heff]
    rfl
  · rw [heff]
    rfl

/-- C5, witness: from counter 41 the call sets the counter to 42, publishes 42 and
logs `New counter value = 42!`. -/
theorem incCounter_step_witness :
    ((-2147483648 : Int) ≤ 41 ∧ (41 : Int) < 2147483647)
    ∧ incCounter { cnt := 41 }
      = ({ cnt := 42 },
         [Effect.setXAttribute 42, Effect.stdout (lit "New counter value = 42!\n")]) :=
  ⟨by decide, (incCounter_step 41 (by decide) (by decide)).1.trans (by decide)⟩

/-- C5, counterexample: at the largest 32-bit counter value `c = 2^31 - 1` the call
leaves the counter at `-2^31`, publishes `-2^31` and logs it; the counter is not
`c + 1` and the published value is not `c + 1`. -/
theorem incCounter_step_fails_at_max :
    incCounter { cnt := 2147483647 }
      = ({ cnt := -2147483648 },
         [Effect.setXAttribute (-2147483648),
          Effect.stdout (lit "New counter value = -2147483648!\n")])
    ∧ (incCounter { cnt := 2147483647 }).1.cnt ≠ 2147483647 + 1
    ∧ publishedValues (incCounter { cnt := 2147483647 }).2 ≠ [2147483647 + 1] := by
  decide

/-- C10, with the equivalence on `n` itself: with the counter a 32-bit signed integer whose increment wraps
modulo `2^32`, on a fresh handler the `k`-th value published (`k` from 1, with any
`sayHello` calls interleaved) is `((k + 2^31) mod 2^32) - 2^31`; the value published
by the `n + 1`-st call equals `n + 1` exactly when `n + 1 < 2^31`; and in every call,
from every state, the value passed to `setXAttribute` after the cast is the new
stored counter, the value written in the log line. -/
theorem incCounter_published_wraps {ClientId : Type} (charSigned : Bool)
    (calls : List (Call ClientId)) (n : Nat) (self : HelloWorldStubImpl) :
    publishedValues (run charSigned HelloWorldStubImpl.init calls).2
      = (List.range (incCalls calls)).map
          (fun (k : Nat) => (((k + 1 : Nat) : Int) + 2147483648) % 4294967296 - 2147483648)
    ∧ nthPublished (n + 1)
      = some ((((n + 1 : Nat) : Int) + 2147483648) % 4294967296 - 2147483648)
    ∧ (nthPublished (n + 1) = some ((n + 1 : Nat) : Int) ↔ n + 1 < 2147483648)
    ∧ ∃ v, (incCounter self).1.cnt = v
        ∧ (incCounter self).2
          = [Effect.setXAttribute v,
             Effect.stdout (lit "New counter value = " ++ decimal v ++ lit "!" ++ lit "\n")] := by
  refine ⟨?_, ?_, ?_, _, rfl, incCounter_effects self⟩
  · rw [run_publishedValues_init]
    apply List.map_congr_left
    intro k _
    simp only [wrapInt32, Nat.cast_add, Nat.cast_one]
  · rw [nthPublished_succ]
    simp only [wrapInt32, Nat.cast_add, Nat.cast_one]
  · rw [nthPublished_succ, Option.some_inj, ← wrapInt32_eq_self_iff (n + 1), Nat.cast_add,
      Nat.cast_one]

/-- C10, counterexample: for `n = 2^32 + 1` the residue `n mod 2^32 = 1` is below
`2^31`, yet the value published by the `n`-th call on a fresh handler is `1`, not
`n`. -/
theorem nthPublished_eq_iff_mod_fails :
    nthPublished 4294967297 = some 1
    ∧ 4294967297 % 4294967296 < 2147483648
    ∧ nthPublished 4294967297 ≠ some ((4294967297 : Nat) : Int)
    ∧ ¬ (nthPublished 4294967297 = some ((4294967297 : Nat) : Int)
          ↔ 4294967297 % 4294967296 < 2147483648) := by
  have hw : wrapInt32 (((4294967296 : Nat) : Int) + 1) = 1 := by decide
  have h1 : nthPublished 4294967297 = some 1 := by
    have h := nthPublished_succ 4294967296
    rw [hw] at h
    exact h
  have hne : nthPublished 4294967297 ≠ some ((4294967297 : Nat) : Int) := by
    rw [h1]
    decide
  exact ⟨h1, by decide, hne, fun hiff => hne (hiff.mpr (by decide))⟩

end HelloWorld
